import Mathlib

/-! Shallow embedding of `packages/ts-transformers/src/preserve-blank-lines.ts`.

Source text is modelled as a `List Char`; offsets are `Nat` indices into that
list.  The external TypeScript API surface consumed by the transformer is
modelled as follows:

* `ts.getLeadingCommentRanges(sourceFileText, fullStart) ?? []` is an oracle
  function `Env.leadingCommentRanges : Nat → List CommentRange`, fixed per
  file (the TS function is a pure function of the source text and the
  `fullStart` offset, so this is faithful for a fixed file);
* object identity of AST nodes (the `node !== this._firstChild` check) is
  modelled by a numeric `id` field on `Node`;
* the two effects a visit can have on a node — attaching synthetic leading
  comments via `ts.addSyntheticLeadingComment`, and clearing the raw trivia
  span via `deleteTriviaRange` (`ts.setTextRange`) — are recorded in a
  `NodeResult` value instead of mutating the node;
* the recursive `ts.visitNode`/`visitEachChild` walk is modelled by folding
  `addComments` over the pre-order list of visited nodes (`runPass`).
-/

namespace PreserveBlankLines

/-- The placeholder comment content, line 20 of the source:
`__BLANK_LINE_PLACEHOLDER_G1JVXUEBNCL6YN5NFE13MD1PT3H9OIHB__`. -/
def BLANK_LINE_PLACEHOLDER_COMMENT : String :=
  "__BLANK_LINE_PLACEHOLDER_G1JVXUEBNCL6YN5NFE13MD1PT3H9OIHB__"

/-- The two comment trivia kinds used by the transformer
(`ts.SyntaxKind.SingleLineCommentTrivia` and
`ts.SyntaxKind.MultiLineCommentTrivia`). -/
inductive CommentKind
  | singleLineCommentTrivia
  | multiLineCommentTrivia
deriving DecidableEq

/-- A `ts.CommentRange`: half-open offset range `[pos, endPos)` in the source
text, its kind, and whether a trailing newline follows it. -/
structure CommentRange where
  pos : Nat
  endPos : Nat
  kind : CommentKind
  hasTrailingNewLine : Bool
deriving DecidableEq

/-- An AST node, reduced to the data `addComments` reads: `getFullStart()`,
`getStart()`, `getEnd()`, whether `ts.isSourceFile(node)` holds, and an `id`
modelling object identity. -/
structure Node where
  id : Nat
  fullStart : Nat
  start : Nat
  endPos : Nat
  isSourceFile : Bool
deriving DecidableEq

/-- The trivia-range key of a node: the source builds the string
`fullStart + ":" + start`; the pair is an exact model of that key. -/
def Node.triviaRangeKey (node : Node) : Nat × Nat :=
  (node.fullStart, node.start)

/-- Per-file ambient data: the source text, the id of the first child
(`file.getChildAt(0).getChildAt(0)`), and the leading-comment oracle
modelling `ts.getLeadingCommentRanges(sourceFileText, ·) ?? []`. -/
structure Env where
  sourceFileText : List Char
  firstChildId : Nat
  leadingCommentRanges : Nat → List CommentRange

/-- The two per-pass sets of `PreserveBlankLinesTransformer`:
`_handledTriviaRanges` and `_deletedTriviaRanges`. -/
structure TState where
  handledTriviaRanges : List (Nat × Nat)
  deletedTriviaRanges : List (Nat × Nat)
deriving DecidableEq

/-- One call to `ts.addSyntheticLeadingComment(node, kind, text, hasTrailingNewLine)`,
recorded as data. -/
structure SyntheticComment where
  kind : CommentKind
  text : List Char
  hasTrailingNewLine : Bool
deriving DecidableEq

/-- The visible effect of `addComments` on one node: the synthetic leading
comments attached to it, in order, and whether `deleteTriviaRange` was applied
to it. -/
structure NodeResult where
  syntheticLeadingComments : List SyntheticComment
  triviaDeleted : Bool
deriving DecidableEq

/-- An element of the `newComments` array of the source:
`Array<ts.CommentRange | typeof BLANK_LINE>`. -/
inductive Entry
  | BLANK_LINE
  | comment (c : CommentRange)
deriving DecidableEq

/-- Whether an entry is an original source comment (as opposed to the
`BLANK_LINE` symbol). -/
def Entry.isExistingComment : Entry → Bool
  | .BLANK_LINE => false
  | .comment _ => true

/-- `text.slice(a, b)` of JavaScript for `Nat` offsets. -/
def slice (s : List Char) (a b : Nat) : List Char :=
  (s.drop a).take (b - a)

/-- `countBlankLines` (source lines 212-220): count the `\n` characters of
the string, then `Math.max(0, newLines - 1)`. -/
def countBlankLines (str : List Char) : Nat :=
  (max 0
    ((str.foldl (fun (newLines : Int) char =>
        if char = '\n' then newLines + 1 else newLines) 0) - 1)).toNat

/-- The local mutable state of the comment loop of `addComments`
(source lines 127-169): the `newComments` array, the two boolean flags, and
`previousRegionEnd`. -/
structure ScanAcc where
  newComments : List Entry
  anyBlankLinesToAdd : Bool
  anyExistingCommentsToResynthesize : Bool
  previousRegionEnd : Nat
deriving DecidableEq

/-- One iteration of the `for (const comment of existingComments)` loop
(source lines 136-156). -/
def commentStep (env : Env) (node : Node) (acc : ScanAcc) (comment : CommentRange) : ScanAcc :=
  if node.id = env.firstChildId then
    ScanAcc.mk acc.newComments acc.anyBlankLinesToAdd
      acc.anyExistingCommentsToResynthesize comment.endPos
  else
    ScanAcc.mk
      (acc.newComments
        ++ List.replicate
            (countBlankLines (slice env.sourceFileText acc.previousRegionEnd comment.pos))
            Entry.BLANK_LINE
        ++ [Entry.comment comment])
      (acc.anyBlankLinesToAdd
        || (countBlankLines (slice env.sourceFileText acc.previousRegionEnd comment.pos) != 0))
      true
      comment.endPos

/-- The `for (const comment of existingComments)` loop itself. -/
def commentLoop (env : Env) (node : Node) : ScanAcc → List CommentRange → ScanAcc
  | acc, [] => acc
  | acc, comment :: rest => commentLoop env node (commentStep env node acc comment) rest

/-- The trailing-trivia block of `addComments` (source lines 160-169): count
the blank lines between the last comment end (or the full start) and the
node's content start. -/
def postPart (env : Env) (node : Node) (acc : ScanAcc) : ScanAcc :=
  if acc.previousRegionEnd < node.start then
    ScanAcc.mk
      (acc.newComments
        ++ List.replicate
            (countBlankLines (slice env.sourceFileText acc.previousRegionEnd node.start))
            Entry.BLANK_LINE)
      (acc.anyBlankLinesToAdd
        || (countBlankLines (slice env.sourceFileText acc.previousRegionEnd node.start) != 0))
      acc.anyExistingCommentsToResynthesize
      acc.previousRegionEnd
  else acc

/-- The whole scanning phase of `addComments` for a node whose trivia range
was not yet handled (source lines 127-169). -/
def scanNode (env : Env) (node : Node) : ScanAcc :=
  postPart env node
    (commentLoop env node (ScanAcc.mk [] false false node.fullStart)
      (env.leadingCommentRanges node.fullStart))

/-- Rendering of one `newComments` entry as a synthetic leading comment
(source lines 186-208): a `BLANK_LINE` becomes a single-line comment with the
placeholder text and a forced trailing newline; a source comment keeps its
kind and trailing-newline flag, and its text is the source slice with the
leading two delimiter characters stripped, and the trailing two as well for
block comments. -/
def renderEntry (env : Env) : Entry → SyntheticComment
  | .BLANK_LINE =>
      SyntheticComment.mk CommentKind.singleLineCommentTrivia
        BLANK_LINE_PLACEHOLDER_COMMENT.data true
  | .comment c =>
      SyntheticComment.mk c.kind
        (slice env.sourceFileText (c.pos + 2)
          (if c.kind = CommentKind.multiLineCommentTrivia then c.endPos - 2 else c.endPos))
        c.hasTrailingNewLine

/-- The synthesis phase of `addComments` (source lines 171-208): return
unchanged if no blank lines were found; otherwise delete the trivia range and
record the key when original comments must be resynthesized, and attach one
synthetic comment per entry. -/
def synthesize (env : Env) (key : Nat × Nat) (st : TState) (acc : ScanAcc) :
    TState × NodeResult :=
  if acc.anyBlankLinesToAdd = false then (st, NodeResult.mk [] false)
  else if acc.anyExistingCommentsToResynthesize = true then
    (TState.mk st.handledTriviaRanges (key :: st.deletedTriviaRanges),
     NodeResult.mk (acc.newComments.map (renderEntry env)) true)
  else
    (st, NodeResult.mk (acc.newComments.map (renderEntry env)) false)

/-- `PreserveBlankLinesTransformer.addComments` (source lines 99-209), as a
state-passing function from the pass state and a node to the new state and
the effects on that node. -/
def addComments (env : Env) (st : TState) (node : Node) : TState × NodeResult :=
  if node.isSourceFile = true then (st, NodeResult.mk [] false)
  else if node.triviaRangeKey ∈ st.handledTriviaRanges then
    if node.triviaRangeKey ∈ st.deletedTriviaRanges then (st, NodeResult.mk [] true)
    else (st, NodeResult.mk [] false)
  else
    synthesize env node.triviaRangeKey
      (TState.mk (node.triviaRangeKey :: st.handledTriviaRanges) st.deletedTriviaRanges)
      (scanNode env node)

/-- The recursive `visit` walk (source lines 74-78), applied to the pre-order
list of visited nodes: threads the pass state and collects each node's
effects. -/
def runPass (env : Env) : TState → List Node → TState × List NodeResult
  | st, [] => (st, [])
  | st, node :: rest =>
      ((runPass env (addComments env st node).1 rest).1,
       (addComments env st node).2 :: (runPass env (addComments env st node).1 rest).2)

/-- A parsed source file, reduced to what the transform reads: its full text,
the leading-comment oracle, the id of the first child, and the pre-order list
of nodes the `visit` walk reaches. -/
structure SourceFile where
  text : List Char
  leadingCommentRanges : Nat → List CommentRange
  firstChildId : Nat
  visitNodes : List Node

/-- `preserveBlankLinesTransformer` (source lines 61-81): if the file text is
empty the file is returned unchanged with no node visited; otherwise a fresh
transformer (with empty sets) processes every visited node. -/
def preserveBlankLinesTransformer (file : SourceFile) : SourceFile × List NodeResult :=
  if file.text.isEmpty = true then (file, [])
  else
    (file,
     (runPass (Env.mk file.text file.firstChildId file.leadingCommentRanges)
        (TState.mk [] []) file.visitNodes).2)

/-- The final value of `previousRegionEnd` after the comment loop: the end of
the last comment, or the given default when there are no comments. -/
def lastRegionEnd : List CommentRange → Nat → Nat
  | [], d => d
  | c :: rest, _ => lastRegionEnd rest c.endPos

/-- Follows the spec's words: the number of blank-line markers for a gap is
the number of newline characters in the gap text, minus 1, floored at 0. -/
def spec_gapMarkerCount (gap : List Char) : Nat :=
  (max 0 (((gap.filter (fun char => char = '\n')).length : Int) - 1)).toNat

/-- Follows the spec's words: the annotation sequence for a trivia region is
obtained by walking the gaps before each comment and after the last comment,
emitting `max 0 (newlines - 1)` markers per gap as one contiguous run, with
each comment emitted between its surrounding gaps. -/
def spec_interleavedAnnotations (text : List Char) (prevEnd : Nat) :
    List CommentRange → Nat → List Entry
  | [], contentStart =>
      List.replicate (spec_gapMarkerCount (slice text prevEnd contentStart)) Entry.BLANK_LINE
  | c :: rest, contentStart =>
      List.replicate (spec_gapMarkerCount (slice text prevEnd c.pos)) Entry.BLANK_LINE
        ++ Entry.comment c :: spec_interleavedAnnotations text c.endPos rest contentStart

/-- Whether an entry is the `BLANK_LINE` symbol. -/
def Entry.isBlank : Entry → Bool
  | .BLANK_LINE => true
  | .comment _ => false

/-- Invariant on the pass state: every deleted trivia range was handled. -/
def TState.WF (st : TState) : Prop :=
  ∀ k, k ∈ st.deletedTriviaRanges → k ∈ st.handledTriviaRanges

/-- Invariant on the pass state: a trivia range is only ever deleted when the
leading-comment oracle reports at least one comment at its full start. -/
def deletedImpliesComments (env : Env) (st : TState) : Prop :=
  ∀ k, k ∈ st.deletedTriviaRanges → env.leadingCommentRanges k.1 ≠ []

/-- Concrete example file with text `//a\n\n\n//b\nX`: two single-line leading
comments at offsets 0-3 and 6-9, two blank lines between them, and content
starting at offset 10. -/
def egEnv : Env :=
  Env.mk ("//a\n\n\n//b\nX".data) 1
    (fun n =>
      if n = 0 then
        [CommentRange.mk 0 3 CommentKind.singleLineCommentTrivia true,
         CommentRange.mk 6 9 CommentKind.singleLineCommentTrivia true]
      else [])

/-- The first child of `egEnv` (id 1 equals `egEnv.firstChildId`). -/
def egFirstChild : Node := Node.mk 1 0 10 11 false

/-- A node of `egEnv` other than the first child, with trivia range 0-10. -/
def egNode : Node := Node.mk 2 0 10 11 false

/-- A second node (a distinct identity) sharing the trivia range of `egNode`. -/
def egNodeDup : Node := Node.mk 3 0 10 11 false

/-- A node of `egEnv` whose trivia gap (offsets 9-10, the text `\n`) holds a
single newline and no comments. -/
def egPlainNode : Node := Node.mk 4 9 10 11 false

/-- Concrete example file with text `\n\n\nx`: no comments at all; the first
child's content starts at offset 3. -/
def egBlankEnv : Env := Env.mk ("\n\n\nx".data) 1 (fun _ => [])

/-- The first child of `egBlankEnv`. -/
def egBlankFirstChild : Node := Node.mk 1 0 3 4 false

/-- Concrete example file with text `/* h */x`, holding a block comment at
offsets 0-7. -/
def egBlockEnv : Env := Env.mk ("/* h */x".data) 1 (fun _ => [])

/-- The block comment of `egBlockEnv`. -/
def egBlockComment : CommentRange :=
  CommentRange.mk 0 7 CommentKind.multiLineCommentTrivia false

theorem foldl_newline_count (l : List Char) (n : Int) :
    l.foldl (fun (newLines : Int) char =>
        if char = '\n' then newLines + 1 else newLines) n
      = n + ((l.filter (fun char => char = '\n')).length : Int) := by
  induction l generalizing n with
  | nil => simp
  | cons c rest ih =>
      by_cases h : c = '\n'
      · simp [List.foldl_cons, List.filter_cons, h, ih]
        ring
      · simp [List.foldl_cons, List.filter_cons, h, ih]

theorem spec_gapMarkerCount_eq (gap : List Char) :
    spec_gapMarkerCount gap = (gap.filter (fun char => char = '\n')).length - 1 := by
  unfold spec_gapMarkerCount
  rcases le_total (((gap.filter (fun char => char = '\n')).length : Int) - 1) 0 with h | h
  · rw [max_eq_left h]; omega
  · rw [max_eq_right h]; omega

theorem countBlankLines_eq_spec (gap : List Char) :
    countBlankLines gap = spec_gapMarkerCount gap := by
  unfold countBlankLines spec_gapMarkerCount
  rw [foldl_newline_count]
  norm_num

theorem slice_eq_nil (s : List Char) (a b : Nat) (h : b ≤ a) : slice s a b = [] := by
  unfold slice
  rw [Nat.sub_eq_zero_of_le h, List.take_zero]

theorem spec_gapMarkerCount_nil : spec_gapMarkerCount [] = 0 := by
  rw [spec_gapMarkerCount_eq]; rfl

theorem countBlankLines_nil : countBlankLines [] = 0 := by
  rw [countBlankLines_eq_spec, spec_gapMarkerCount_nil]

theorem bne_zero_eq (n : Nat) : (n != 0) = !decide (n = 0) := by
  cases n <;> rfl

theorem any_replicate_blank_comment (n : Nat) :
    (List.replicate n Entry.BLANK_LINE).any Entry.isExistingComment = false := by
  induction n with
  | zero => rfl
  | succ k ih => simp [List.replicate_succ, ih, Entry.isExistingComment]

theorem any_replicate_blank_isBlank (n : Nat) :
    (List.replicate n Entry.BLANK_LINE).any Entry.isBlank = (n != 0) := by
  cases n with
  | zero => rfl
  | succ k => simp [List.replicate_succ, Entry.isBlank]

theorem commentLoop_firstChild (env : Env) (node : Node) (h : node.id = env.firstChildId)
    (cs : List CommentRange) (acc : ScanAcc) :
    commentLoop env node acc cs
      = ScanAcc.mk acc.newComments acc.anyBlankLinesToAdd
          acc.anyExistingCommentsToResynthesize (lastRegionEnd cs acc.previousRegionEnd) := by
  induction cs generalizing acc with
  | nil => rfl
  | cons c rest ih =>
      simp only [commentLoop, commentStep, if_pos h, lastRegionEnd]
      exact ih _

theorem scanNode_firstChild (env : Env) (node : Node) (h : node.id = env.firstChildId) :
    scanNode env node
      = ScanAcc.mk
          (List.replicate
            (countBlankLines (slice env.sourceFileText
              (lastRegionEnd (env.leadingCommentRanges node.fullStart) node.fullStart)
              node.start))
            Entry.BLANK_LINE)
          (countBlankLines (slice env.sourceFileText
              (lastRegionEnd (env.leadingCommentRanges node.fullStart) node.fullStart)
              node.start) != 0)
          false
          (lastRegionEnd (env.leadingCommentRanges node.fullStart) node.fullStart) := by
  unfold scanNode
  rw [commentLoop_firstChild env node h]
  unfold postPart
  by_cases hlt :
      lastRegionEnd (env.leadingCommentRanges node.fullStart) node.fullStart < node.start
  · simp [if_pos hlt]
  · rw [if_neg]
    · rw [slice_eq_nil _ _ _ (Nat.le_of_not_lt hlt), countBlankLines_nil]
      rfl
    · exact hlt

theorem postLoop_newComments (env : Env) (node : Node) (h : ¬ node.id = env.firstChildId)
    (cs : List CommentRange) (acc : ScanAcc) :
    (postPart env node (commentLoop env node acc cs)).newComments
      = acc.newComments
        ++ spec_interleavedAnnotations env.sourceFileText acc.previousRegionEnd cs node.start := by
  induction cs generalizing acc with
  | nil =>
      by_cases hlt : acc.previousRegionEnd < node.start
      · simp [commentLoop, postPart, if_pos hlt, spec_interleavedAnnotations,
          countBlankLines_eq_spec]
      · simp only [commentLoop, postPart, if_neg hlt, spec_interleavedAnnotations]
        rw [slice_eq_nil _ _ _ (Nat.le_of_not_lt hlt), spec_gapMarkerCount_nil]
        simp
  | cons c rest ih =>
      simp only [commentLoop, commentStep, if_neg h]
      rw [ih]
      simp [spec_interleavedAnnotations, countBlankLines_eq_spec, List.append_assoc]

theorem commentLoop_existing_inv (env : Env) (node : Node)
    (cs : List CommentRange) (acc : ScanAcc)
    (h : acc.anyExistingCommentsToResynthesize
        = acc.newComments.any Entry.isExistingComment) :
    (commentLoop env node acc cs).anyExistingCommentsToResynthesize
      = (commentLoop env node acc cs).newComments.any Entry.isExistingComment := by
  induction cs generalizing acc with
  | nil => exact h
  | cons c rest ih =>
      simp only [commentLoop]
      apply ih
      unfold commentStep
      by_cases hfc : node.id = env.firstChildId
      · simpa [if_pos hfc]
      · simp [if_neg hfc, List.any_append, any_replicate_blank_comment,
          Entry.isExistingComment]

theorem postPart_existing_inv (env : Env) (node : Node) (acc : ScanAcc)
    (h : acc.anyExistingCommentsToResynthesize
        = acc.newComments.any Entry.isExistingComment) :
    (postPart env node acc).anyExistingCommentsToResynthesize
      = (postPart env node acc).newComments.any Entry.isExistingComment := by
  unfold postPart
  by_cases hlt : acc.previousRegionEnd < node.start
  · simp [if_pos hlt, List.any_append, any_replicate_blank_comment, h,
      Entry.isExistingComment]
  · simpa [if_neg hlt]

theorem scanNode_existing_eq (env : Env) (node : Node) :
    (scanNode env node).anyExistingCommentsToResynthesize
      = (scanNode env node).newComments.any Entry.isExistingComment := by
  unfold scanNode
  apply postPart_existing_inv
  apply commentLoop_existing_inv
  rfl

theorem commentLoop_blank_inv (env : Env) (node : Node)
    (cs : List CommentRange) (acc : ScanAcc)
    (h : acc.anyBlankLinesToAdd = acc.newComments.any Entry.isBlank) :
    (commentLoop env node acc cs).anyBlankLinesToAdd
      = (commentLoop env node acc cs).newComments.any Entry.isBlank := by
  induction cs generalizing acc with
  | nil => exact h
  | cons c rest ih =>
      simp only [commentLoop]
      apply ih
      unfold commentStep
      by_cases hfc : node.id = env.firstChildId
      · simpa [if_pos hfc]
      · simp [if_neg hfc, List.any_append, any_replicate_blank_isBlank, h,
          Entry.isBlank, Bool.or_assoc, bne_zero_eq]

theorem postPart_blank_inv (env : Env) (node : Node) (acc : ScanAcc)
    (h : acc.anyBlankLinesToAdd = acc.newComments.any Entry.isBlank) :
    (postPart env node acc).anyBlankLinesToAdd
      = (postPart env node acc).newComments.any Entry.isBlank := by
  unfold postPart
  by_cases hlt : acc.previousRegionEnd < node.start
  · simp [if_pos hlt, List.any_append, any_replicate_blank_isBlank, h,
      Entry.isBlank, bne_zero_eq]
  · simpa [if_neg hlt]

theorem scanNode_blank_eq (env : Env) (node : Node) :
    (scanNode env node).anyBlankLinesToAdd
      = (scanNode env node).newComments.any Entry.isBlank := by
  unfold scanNode
  apply postPart_blank_inv
  apply commentLoop_blank_inv
  rfl

theorem any_isBlank_iff_mem (l : List Entry) :
    l.any Entry.isBlank = true ↔ Entry.BLANK_LINE ∈ l := by
  rw [List.any_eq_true]
  constructor
  · rintro ⟨e, he, hb⟩
    cases e with
    | BLANK_LINE => exact he
    | comment c => exact absurd hb (by simp [Entry.isBlank])
  · intro hm
    exact ⟨Entry.BLANK_LINE, hm, rfl⟩

theorem postPart_anyExisting (env : Env) (node : Node) (acc : ScanAcc) :
    (postPart env node acc).anyExistingCommentsToResynthesize
      = acc.anyExistingCommentsToResynthesize := by
  unfold postPart
  by_cases hlt : acc.previousRegionEnd < node.start
  · rw [if_pos hlt]
  · rw [if_neg hlt]

theorem scanNode_noComments_existing (env : Env) (node : Node)
    (hcom : env.leadingCommentRanges node.fullStart = []) :
    (scanNode env node).anyExistingCommentsToResynthesize = false := by
  unfold scanNode
  rw [hcom]
  rw [postPart_anyExisting]
  rfl

theorem addComments_state_cases (env : Env) (st : TState) (node : Node) :
    (addComments env st node).1 = st
    ∨ (node.triviaRangeKey ∉ st.handledTriviaRanges
        ∧ ((addComments env st node).1
              = TState.mk (node.triviaRangeKey :: st.handledTriviaRanges)
                  st.deletedTriviaRanges
            ∨ (addComments env st node).1
              = TState.mk (node.triviaRangeKey :: st.handledTriviaRanges)
                  (node.triviaRangeKey :: st.deletedTriviaRanges))) := by
  unfold addComments synthesize
  by_cases hsf : node.isSourceFile = true
  · left; rw [if_pos hsf]
  · rw [if_neg hsf]
    by_cases hh : node.triviaRangeKey ∈ st.handledTriviaRanges
    · left
      rw [if_pos hh]
      by_cases hd : node.triviaRangeKey ∈ st.deletedTriviaRanges
      · rw [if_pos hd]
      · rw [if_neg hd]
    · right
      refine ⟨hh, ?_⟩
      rw [if_neg hh]
      by_cases hb : (scanNode env node).anyBlankLinesToAdd = false
      · left; rw [if_pos hb]
      · rw [if_neg hb]
        by_cases he : (scanNode env node).anyExistingCommentsToResynthesize = true
        · right; rw [if_pos he]
        · left; rw [if_neg he]

theorem addComments_handled_mono (env : Env) (st : TState) (node : Node) (k : Nat × Nat)
    (hk : k ∈ st.handledTriviaRanges) :
    k ∈ (addComments env st node).1.handledTriviaRanges := by
  rcases addComments_state_cases env st node with h | ⟨_, h | h⟩ <;>
    rw [h] <;> first | exact hk | exact List.mem_cons_of_mem _ hk

theorem addComments_deleted_stable (env : Env) (st : TState) (node : Node) (k : Nat × Nat)
    (hk : k ∈ st.handledTriviaRanges) :
    (k ∈ (addComments env st node).1.deletedTriviaRanges
      ↔ k ∈ st.deletedTriviaRanges) := by
  rcases addComments_state_cases env st node with h | ⟨hfresh, h | h⟩ <;> rw [h]
  · constructor
    · intro hm
      rcases List.mem_cons.mp hm with rfl | hm
      · exact absurd hk hfresh
      · exact hm
    · exact fun hm => List.mem_cons_of_mem _ hm

theorem addComments_wf (env : Env) (st : TState) (node : Node) (hwf : st.WF) :
    (addComments env st node).1.WF := by
  rcases addComments_state_cases env st node with h | ⟨hfresh, h | h⟩ <;> rw [h]
  · exact hwf
  · intro k hk
    exact List.mem_cons_of_mem _ (hwf k hk)
  · intro k hk
    rcases List.mem_cons.mp hk with rfl | hk
    · exact List.mem_cons_self _ _
    · exact List.mem_cons_of_mem _ (hwf k hk)

theorem addComments_key_handled (env : Env) (st : TState) (node : Node)
    (hsf : node.isSourceFile = false) :
    node.triviaRangeKey ∈ (addComments env st node).1.handledTriviaRanges := by
  unfold addComments synthesize
  rw [if_neg (by rw [hsf]; exact Bool.false_ne_true)]
  by_cases hh : node.triviaRangeKey ∈ st.handledTriviaRanges
  · rw [if_pos hh]
    by_cases hd : node.triviaRangeKey ∈ st.deletedTriviaRanges
    · rw [if_pos hd]; exact hh
    · rw [if_neg hd]; exact hh
  · rw [if_neg hh]
    by_cases hb : (scanNode env node).anyBlankLinesToAdd = false
    · rw [if_pos hb]; exact List.mem_cons_self _ _
    · rw [if_neg hb]
      by_cases he : (scanNode env node).anyExistingCommentsToResynthesize = true
      · rw [if_pos he]; exact List.mem_cons_self _ _
      · rw [if_neg he]; exact List.mem_cons_self _ _

theorem addComments_result_deleted (env : Env) (st : TState) (node : Node)
    (hwf : st.WF) (hsf : node.isSourceFile = false) :
    ((addComments env st node).2.triviaDeleted = true
      ↔ node.triviaRangeKey ∈ (addComments env st node).1.deletedTriviaRanges) := by
  unfold addComments synthesize
  rw [if_neg (by rw [hsf]; exact Bool.false_ne_true)]
  by_cases hh : node.triviaRangeKey ∈ st.handledTriviaRanges
  · rw [if_pos hh]
    by_cases hd : node.triviaRangeKey ∈ st.deletedTriviaRanges
    · rw [if_pos hd]; simpa
    · rw [if_neg hd]; simpa
  · rw [if_neg hh]
    have hd : node.triviaRangeKey ∉ st.deletedTriviaRanges := fun hm => hh (hwf _ hm)
    by_cases hb : (scanNode env node).anyBlankLinesToAdd = false
    · rw [if_pos hb]; simpa
    · rw [if_neg hb]
      by_cases he : (scanNode env node).anyExistingCommentsToResynthesize = true
      · rw [if_pos he]
        simp
      · rw [if_neg he]; simpa

theorem addComments_handledKey_nil (env : Env) (st : TState) (node : Node)
    (hsf : node.isSourceFile = false)
    (hh : node.triviaRangeKey ∈ st.handledTriviaRanges) :
    (addComments env st node).2.syntheticLeadingComments = [] := by
  unfold addComments
  rw [if_neg (by rw [hsf]; exact Bool.false_ne_true), if_pos hh]
  by_cases hd : node.triviaRangeKey ∈ st.deletedTriviaRanges
  · rw [if_pos hd]
  · rw [if_neg hd]

theorem addComments_delInv (env : Env) (st : TState) (node : Node)
    (h : deletedImpliesComments env st) :
    deletedImpliesComments env (addComments env st node).1 := by
  unfold addComments
  by_cases hsf : node.isSourceFile = true
  · rw [if_pos hsf]; exact h
  · rw [if_neg hsf]
    by_cases hh : node.triviaRangeKey ∈ st.handledTriviaRanges
    · rw [if_pos hh]
      by_cases hd : node.triviaRangeKey ∈ st.deletedTriviaRanges
      · rw [if_pos hd]; exact h
      · rw [if_neg hd]; exact h
    · rw [if_neg hh]
      unfold synthesize
      by_cases hb : (scanNode env node).anyBlankLinesToAdd = false
      · rw [if_pos hb]; exact h
      · rw [if_neg hb]
        by_cases he : (scanNode env node).anyExistingCommentsToResynthesize = true
        · rw [if_pos he]
          intro k hk
          rcases List.mem_cons.mp hk with rfl | hk
          · intro hcom
            have := scanNode_noComments_existing env node hcom
            rw [he] at this
            exact Bool.noConfusion this
          · exact h k hk
        · rw [if_neg he]; exact h

theorem countBlankLines_le_one (gap : List Char)
    (h : (gap.filter (fun char => char = '\n')).length ≤ 1) :
    countBlankLines gap = 0 := by
  rw [countBlankLines_eq_spec, spec_gapMarkerCount_eq]
  omega

theorem postPart_anyBlank_false (env : Env) (node : Node) (acc : ScanAcc)
    (hb : acc.anyBlankLinesToAdd = false)
    (hz : countBlankLines (slice env.sourceFileText acc.previousRegionEnd node.start) = 0) :
    (postPart env node acc).anyBlankLinesToAdd = false := by
  unfold postPart
  by_cases hlt : acc.previousRegionEnd < node.start
  · rw [if_pos hlt]
    show (acc.anyBlankLinesToAdd
        || (countBlankLines (slice env.sourceFileText acc.previousRegionEnd node.start) != 0))
      = false
    rw [hb, hz]
    rfl
  · rw [if_neg hlt]; exact hb

theorem addComments_untouched (env : Env) (st : TState) (node : Node)
    (hinv : deletedImpliesComments env st)
    (hgap : ((slice env.sourceFileText node.fullStart node.start).filter
        (fun char => char = '\n')).length ≤ 1)
    (hcom : env.leadingCommentRanges node.fullStart = []) :
    (addComments env st node).2 = NodeResult.mk [] false := by
  unfold addComments
  by_cases hsf : node.isSourceFile = true
  · rw [if_pos hsf]
  · rw [if_neg hsf]
    by_cases hh : node.triviaRangeKey ∈ st.handledTriviaRanges
    · rw [if_pos hh]
      rw [if_neg (fun hd => hinv node.triviaRangeKey hd hcom)]
    · rw [if_neg hh]
      unfold synthesize
      have hb : (scanNode env node).anyBlankLinesToAdd = false := by
        unfold scanNode
        rw [hcom]
        exact postPart_anyBlank_false env node _ rfl (countBlankLines_le_one _ hgap)
      rw [if_pos hb]

theorem runPass_deleted_stable (env : Env) (ns : List Node) (st : TState) (k : Nat × Nat)
    (hk : k ∈ st.handledTriviaRanges) :
    (k ∈ (runPass env st ns).1.deletedTriviaRanges ↔ k ∈ st.deletedTriviaRanges) := by
  induction ns generalizing st with
  | nil => exact Iff.rfl
  | cons node rest ih =>
      simp only [runPass]
      rw [ih _ (addComments_handled_mono env st node k hk)]
      exact addComments_deleted_stable env st node k hk

theorem runPass_wf (env : Env) (ns : List Node) (st : TState) (hwf : st.WF) :
    (runPass env st ns).1.WF := by
  induction ns generalizing st with
  | nil => exact hwf
  | cons node rest ih =>
      simp only [runPass]
      exact ih _ (addComments_wf env st node hwf)

theorem runPass_deleted_char (env : Env) (ns : List Node) (st : TState)
    (hwf : st.WF) (i : Nat) (n : Node) (r : NodeResult)
    (hn : ns.get? i = some n) (hr : (runPass env st ns).2.get? i = some r)
    (hsf : n.isSourceFile = false) :
    (r.triviaDeleted = true
      ↔ n.triviaRangeKey ∈ (runPass env st ns).1.deletedTriviaRanges) := by
  induction ns generalizing st i with
  | nil => exact absurd hn (by simp)
  | cons node rest ih =>
      cases i with
      | zero =>
          have hn' : node = n := by simpa using hn
          have hr' : (addComments env st node).2 = r := by
            simpa [runPass] using hr
          subst hn'
          rw [← hr']
          simp only [runPass]
          rw [runPass_deleted_stable env rest (addComments env st node).1 node.triviaRangeKey
            (addComments_key_handled env st node hsf)]
          exact addComments_result_deleted env st node hwf hsf
      | succ j =>
          simp only [runPass] at hr ⊢
          exact ih (addComments env st node).1
            (addComments_wf env st node hwf) j (by simpa using hn) (by simpa using hr)

theorem runPass_handledKey_nil (env : Env) (ns : List Node) (st : TState) (k : Nat × Nat)
    (hk : k ∈ st.handledTriviaRanges) (j : Nat) (n : Node) (r : NodeResult)
    (hn : ns.get? j = some n) (hr : (runPass env st ns).2.get? j = some r)
    (hsf : n.isSourceFile = false) (hkey : n.triviaRangeKey = k) :
    r.syntheticLeadingComments = [] := by
  induction ns generalizing st j with
  | nil => exact absurd hn (by simp)
  | cons node rest ih =>
      cases j with
      | zero =>
          have hn' : node = n := by simpa using hn
          have hr' : (addComments env st node).2 = r := by
            simpa [runPass] using hr
          subst hn'
          rw [← hr']
          exact addComments_handledKey_nil env st node hsf (hkey ▸ hk)
      | succ j' =>
          simp only [runPass] at hr
          exact ih (addComments env st node).1
            (addComments_handled_mono env st node k hk) j' (by simpa using hn)
            (by simpa using hr)

theorem runPass_later_dup_nil (env : Env) (ns : List Node) (st : TState)
    (i j : Nat) (n1 n2 : Node) (r2 : NodeResult) (hij : i < j)
    (hn1 : ns.get? i = some n1) (hn2 : ns.get? j = some n2)
    (hr2 : (runPass env st ns).2.get? j = some r2)
    (hsf1 : n1.isSourceFile = false) (hsf2 : n2.isSourceFile = false)
    (hkey : n1.triviaRangeKey = n2.triviaRangeKey) :
    r2.syntheticLeadingComments = [] := by
  induction ns generalizing st i j with
  | nil => exact absurd hn1 (by simp)
  | cons node rest ih =>
      cases i with
      | zero =>
          cases j with
          | zero => omega
          | succ j' =>
              have hn1' : node = n1 := by simpa using hn1
              subst hn1'
              simp only [runPass] at hr2
              exact runPass_handledKey_nil env rest (addComments env st node).1
                node.triviaRangeKey (addComments_key_handled env st node hsf1)
                j' n2 r2 (by simpa using hn2) (by simpa using hr2) hsf2 hkey.symm
      | succ i' =>
          cases j with
          | zero => omega
          | succ j' =>
              simp only [runPass] at hr2
              exact ih (addComments env st node).1 i' j' (by omega)
                (by simpa using hn1) (by simpa using hn2) (by simpa using hr2)

theorem runPass_untouched (env : Env) (ns : List Node) (st : TState)
    (hinv : deletedImpliesComments env st) (i : Nat) (n : Node)
    (hn : ns.get? i = some n)
    (hgap : ((slice env.sourceFileText n.fullStart n.start).filter
        (fun char => char = '\n')).length ≤ 1)
    (hcom : env.leadingCommentRanges n.fullStart = []) :
    (runPass env st ns).2.get? i = some (NodeResult.mk [] false) := by
  induction ns generalizing st i with
  | nil => exact absurd hn (by simp)
  | cons node rest ih =>
      cases i with
      | zero =>
          have hn' : node = n := by simpa using hn
          subst hn'
          simp only [runPass, List.get?]
          rw [addComments_untouched env st node hinv hgap hcom]
      | succ j =>
          simp only [runPass, List.get?]
          exact ih (addComments env st node).1 (addComments_delInv env st node hinv) j
            (by simpa using hn)

theorem slice_length (s : List Char) (a b : Nat) :
    (slice s a b).length = min (b - a) (s.length - a) := by
  unfold slice
  rw [List.length_take, List.length_drop]

theorem slice_drop_two (s : List Char) (a b : Nat) :
    slice s (a + 2) b = (slice s a b).drop 2 := by
  unfold slice
  rw [List.drop_take, List.drop_drop]
  congr 1

theorem slice_take_four (s : List Char) (a b : Nat) :
    slice s (a + 2) (b - 2) = (slice s (a + 2) b).take (b - a - 4) := by
  unfold slice
  rw [List.take_take]
  congr 1
  omega

/-- Claim C1: for every node other than the first child, the annotation
sequence computed for its trivia region is exactly the gap-by-gap
interleaving in which a gap containing `k` newline characters and zero
comments contributes a single contiguous run of exactly `max 0 (k - 1)`
blank-line placeholder markers at its position. -/
theorem claim_C1_gap_marker_counts (env : Env) (node : Node)
    (h : ¬ node.id = env.firstChildId) :
    (scanNode env node).newComments
      = spec_interleavedAnnotations env.sourceFileText node.fullStart
          (env.leadingCommentRanges node.fullStart) node.start := by
  unfold scanNode
  have hmain := postLoop_newComments env node h (env.leadingCommentRanges node.fullStart)
    (ScanAcc.mk [] false false node.fullStart)
  simpa using hmain

/-- Claim C1 witness: the characterization instantiated at the concrete
example node of `egEnv` that is not the first child. -/
theorem claim_C1_witness :
    (¬ egNode.id = egEnv.firstChildId)
    ∧ (scanNode egEnv egNode).newComments
        = spec_interleavedAnnotations egEnv.sourceFileText egNode.fullStart
            (egEnv.leadingCommentRanges egNode.fullStart) egNode.start :=
  ⟨by decide, claim_C1_gap_marker_counts egEnv egNode (by decide)⟩

/-- Claim C2: any two non-source-file nodes of one pass that share the same
trivia-range key receive the same trivia-deletion treatment, and any later
node sharing the key of an earlier one gets no synthetic comments (the
marker computation ran only at the first). -/
theorem claim_C2_shared_region (env : Env) (nodes : List Node) (i j : Nat)
    (n1 n2 : Node) (r1 r2 : NodeResult)
    (hn1 : nodes.get? i = some n1) (hn2 : nodes.get? j = some n2)
    (hr1 : (runPass env (TState.mk [] []) nodes).2.get? i = some r1)
    (hr2 : (runPass env (TState.mk [] []) nodes).2.get? j = some r2)
    (hsf1 : n1.isSourceFile = false) (hsf2 : n2.isSourceFile = false)
    (hkey : n1.triviaRangeKey = n2.triviaRangeKey) :
    r1.triviaDeleted = r2.triviaDeleted
    ∧ (i < j → r2.syntheticLeadingComments = []) := by
  have hwf : (TState.mk [] [] : TState).WF := fun k hk => absurd hk (List.not_mem_nil k)
  constructor
  · have h1 := runPass_deleted_char env nodes (TState.mk [] []) hwf i n1 r1 hn1 hr1 hsf1
    have h2 := runPass_deleted_char env nodes (TState.mk [] []) hwf j n2 r2 hn2 hr2 hsf2
    rw [hkey] at h1
    have hiff := h1.trans h2.symm
    cases hd1 : r1.triviaDeleted <;> cases hd2 : r2.triviaDeleted
    · rfl
    · rw [hd1, hd2] at hiff
      exact absurd (hiff.mpr rfl) (fun hc => Bool.noConfusion hc)
    · rw [hd1, hd2] at hiff
      exact absurd (hiff.mp rfl) (fun hc => Bool.noConfusion hc)
    · rfl
  · intro hij
    exact runPass_later_dup_nil env nodes (TState.mk [] []) i j n1 n2 r2 hij hn1 hn2 hr2
      hsf1 hsf2 hkey

/-- Claim C2 witness: two concrete nodes sharing the trivia range 0-10 of
`egEnv`; the first is rewritten (trivia deleted) and the second is then also
deleted with no synthetic comments. -/
theorem claim_C2_witness :
    [egNode, egNodeDup].get? 0 = some egNode
    ∧ [egNode, egNodeDup].get? 1 = some egNodeDup
    ∧ (runPass egEnv (TState.mk [] []) [egNode, egNodeDup]).2.get? 0
        = some (NodeResult.mk
            [SyntheticComment.mk CommentKind.singleLineCommentTrivia ['a'] true,
             SyntheticComment.mk CommentKind.singleLineCommentTrivia
               BLANK_LINE_PLACEHOLDER_COMMENT.data true,
             SyntheticComment.mk CommentKind.singleLineCommentTrivia
               BLANK_LINE_PLACEHOLDER_COMMENT.data true,
             SyntheticComment.mk CommentKind.singleLineCommentTrivia ['b'] true]
            true)
    ∧ (runPass egEnv (TState.mk [] []) [egNode, egNodeDup]).2.get? 1
        = some (NodeResult.mk [] true)
    ∧ egNode.isSourceFile = false
    ∧ egNodeDup.isSourceFile = false
    ∧ egNode.triviaRangeKey = egNodeDup.triviaRangeKey
    ∧ ((NodeResult.mk
          [SyntheticComment.mk CommentKind.singleLineCommentTrivia ['a'] true,
           SyntheticComment.mk CommentKind.singleLineCommentTrivia
             BLANK_LINE_PLACEHOLDER_COMMENT.data true,
           SyntheticComment.mk CommentKind.singleLineCommentTrivia
             BLANK_LINE_PLACEHOLDER_COMMENT.data true,
           SyntheticComment.mk CommentKind.singleLineCommentTrivia ['b'] true]
          true).triviaDeleted
          = (NodeResult.mk [] true).triviaDeleted
        ∧ ((0 : Nat) < 1 → (NodeResult.mk [] true).syntheticLeadingComments = [])) :=
  ⟨rfl, rfl, by decide, by decide, rfl, rfl, rfl,
   claim_C2_shared_region egEnv [egNode, egNodeDup] 0 1 egNode egNodeDup
     (NodeResult.mk
       [SyntheticComment.mk CommentKind.singleLineCommentTrivia ['a'] true,
        SyntheticComment.mk CommentKind.singleLineCommentTrivia
          BLANK_LINE_PLACEHOLDER_COMMENT.data true,
        SyntheticComment.mk CommentKind.singleLineCommentTrivia
          BLANK_LINE_PLACEHOLDER_COMMENT.data true,
        SyntheticComment.mk CommentKind.singleLineCommentTrivia ['b'] true]
       true)
     (NodeResult.mk [] true) rfl rfl (by decide) (by decide) rfl rfl rfl⟩

/-- Claim C3 counterexample: for the first child of a file that starts with
blank lines and has no leading comments at all, the pass does attach
placeholder markers for the blank lines before the first line, contradicting
the claim that they are not preserved in the no-comments case. -/
theorem claim_C3_counterexample :
    egBlankEnv.leadingCommentRanges egBlankFirstChild.fullStart = []
    ∧ egBlankFirstChild.id = egBlankEnv.firstChildId
    ∧ (addComments egBlankEnv (TState.mk [] []) egBlankFirstChild).2.syntheticLeadingComments
        = List.replicate 2 (SyntheticComment.mk CommentKind.singleLineCommentTrivia
            BLANK_LINE_PLACEHOLDER_COMMENT.data true) :=
  ⟨rfl, rfl, by decide⟩

/-- Claim C3 (amended): for the first child of the root, processed fresh, the
pass attaches exactly one placeholder comment per blank line found after the
last leading comment (after the full start when there are no comments) up to
the node's content start, re-emits no original comment, and never clears the
node's trivia nor records its key as rewritten. -/
theorem claim_C3_first_child (env : Env) (st : TState) (node : Node)
    (hsf : node.isSourceFile = false)
    (hfresh : node.triviaRangeKey ∉ st.handledTriviaRanges)
    (hfc : node.id = env.firstChildId) :
    addComments env st node
      = (TState.mk (node.triviaRangeKey :: st.handledTriviaRanges) st.deletedTriviaRanges,
         NodeResult.mk
           (List.replicate
             (countBlankLines (slice env.sourceFileText
               (lastRegionEnd (env.leadingCommentRanges node.fullStart) node.fullStart)
               node.start))
             (SyntheticComment.mk CommentKind.singleLineCommentTrivia
               BLANK_LINE_PLACEHOLDER_COMMENT.data true))
           false) := by
  unfold addComments
  rw [if_neg (by rw [hsf]; exact Bool.false_ne_true), if_neg hfresh]
  rw [scanNode_firstChild env node hfc]
  unfold synthesize
  by_cases hn : countBlankLines (slice env.sourceFileText
      (lastRegionEnd (env.leadingCommentRanges node.fullStart) node.fullStart)
      node.start) = 0
  · rw [hn]
    simp
  · simp [bne_zero_eq, hn, renderEntry]

/-- Claim C3 witness: the amended statement instantiated at the first child
of `egEnv`, starting from empty pass state. -/
theorem claim_C3_witness :
    egFirstChild.isSourceFile = false
    ∧ egFirstChild.triviaRangeKey ∉ (TState.mk [] [] : TState).handledTriviaRanges
    ∧ egFirstChild.id = egEnv.firstChildId
    ∧ addComments egEnv (TState.mk [] []) egFirstChild
        = (TState.mk (egFirstChild.triviaRangeKey
              :: (TState.mk [] [] : TState).handledTriviaRanges)
            (TState.mk [] [] : TState).deletedTriviaRanges,
           NodeResult.mk
             (List.replicate
               (countBlankLines (slice egEnv.sourceFileText
                 (lastRegionEnd (egEnv.leadingCommentRanges egFirstChild.fullStart)
                   egFirstChild.fullStart)
                 egFirstChild.start))
               (SyntheticComment.mk CommentKind.singleLineCommentTrivia
                 BLANK_LINE_PLACEHOLDER_COMMENT.data true))
             false) :=
  ⟨rfl, by decide, rfl,
   claim_C3_first_child egEnv (TState.mk [] []) egFirstChild rfl (by decide) rfl⟩

/-- Claim C4: when at least one blank-line marker was produced for a fresh
non-source-file node, the node's trivia is deleted exactly when the computed
annotation sequence holds at least one existing comment, and in that case
(and only then) the key is recorded as deleted. -/
theorem claim_C4_delete_iff_existing (env : Env) (st : TState) (node : Node)
    (hsf : node.isSourceFile = false)
    (hfresh : node.triviaRangeKey ∉ st.handledTriviaRanges)
    (hblank : Entry.BLANK_LINE ∈ (scanNode env node).newComments) :
    (addComments env st node).2.triviaDeleted
        = (scanNode env node).newComments.any Entry.isExistingComment
    ∧ (addComments env st node).1.deletedTriviaRanges
        = (if (scanNode env node).newComments.any Entry.isExistingComment = true
            then node.triviaRangeKey :: st.deletedTriviaRanges
            else st.deletedTriviaRanges) := by
  have hb : (scanNode env node).anyBlankLinesToAdd = true := by
    rw [scanNode_blank_eq]
    exact (any_isBlank_iff_mem _).mpr hblank
  unfold addComments synthesize
  rw [if_neg (by rw [hsf]; exact Bool.false_ne_true), if_neg hfresh]
  rw [if_neg (by rw [hb]; exact fun hc => Bool.noConfusion hc)]
  by_cases he : (scanNode env node).newComments.any Entry.isExistingComment = true
  · rw [if_pos (by rw [scanNode_existing_eq]; exact he), if_pos he]
    exact ⟨he.symm, rfl⟩
  · rw [if_neg (by rw [scanNode_existing_eq]; exact he), if_neg he]
    refine ⟨?_, rfl⟩
    cases hcase : (scanNode env node).newComments.any Entry.isExistingComment
    · rfl
    · exact absurd hcase he

/-- Claim C4 witness: at the concrete node `egNode` the sequence holds
existing comments, so the trivia is deleted and the key recorded. -/
theorem claim_C4_witness :
    egNode.isSourceFile = false
    ∧ egNode.triviaRangeKey ∉ (TState.mk [] [] : TState).handledTriviaRanges
    ∧ Entry.BLANK_LINE ∈ (scanNode egEnv egNode).newComments
    ∧ ((addComments egEnv (TState.mk [] []) egNode).2.triviaDeleted
          = (scanNode egEnv egNode).newComments.any Entry.isExistingComment
        ∧ (addComments egEnv (TState.mk [] []) egNode).1.deletedTriviaRanges
          = (if (scanNode egEnv egNode).newComments.any Entry.isExistingComment = true
              then egNode.triviaRangeKey :: (TState.mk [] [] : TState).deletedTriviaRanges
              else (TState.mk [] [] : TState).deletedTriviaRanges)) :=
  ⟨rfl, by decide, by decide,
   claim_C4_delete_iff_existing egEnv (TState.mk [] []) egNode rfl (by decide) (by decide)⟩

/-- Claim C5: a re-attached existing comment keeps its kind and its
trailing-newline flag, and its stored text is the source slice with the
leading two delimiter characters stripped, and the trailing two as well for
block comments. -/
theorem claim_C5_comment_render (env : Env) (c : CommentRange) (inner : List Char)
    (hend : c.endPos ≤ env.sourceFileText.length)
    (hsl : c.kind = CommentKind.singleLineCommentTrivia →
        slice env.sourceFileText c.pos c.endPos = '/' :: '/' :: inner)
    (hml : c.kind = CommentKind.multiLineCommentTrivia →
        slice env.sourceFileText c.pos c.endPos = '/' :: '*' :: (inner ++ ['*', '/'])) :
    renderEntry env (Entry.comment c)
      = SyntheticComment.mk c.kind inner c.hasTrailingNewLine := by
  simp only [renderEntry]
  cases hk : c.kind with
  | singleLineCommentTrivia =>
      rw [if_neg (fun hc => CommentKind.noConfusion hc)]
      rw [slice_drop_two, hsl hk]
      rfl
  | multiLineCommentTrivia =>
      rw [if_pos rfl]
      have hlen : c.endPos - c.pos = inner.length + 4 := by
        have h1 := congrArg List.length (hml hk)
        rw [slice_length] at h1
        simp only [List.length_cons, List.length_append, List.length_nil] at h1
        omega
      rw [slice_take_four, slice_drop_two, hml hk]
      show SyntheticComment.mk CommentKind.multiLineCommentTrivia
          ((inner ++ ['*', '/']).take (c.endPos - c.pos - 4)) c.hasTrailingNewLine
        = SyntheticComment.mk CommentKind.multiLineCommentTrivia inner c.hasTrailingNewLine
      rw [hlen]
      have h4 : inner.length + 4 - 4 = inner.length := by omega
      rw [h4, List.take_left]

/-- Claim C5 witness: the block comment `/* h */` of `egBlockEnv` renders
with inner text ` h ` (one space kept on each side), same kind, same flag. -/
theorem claim_C5_witness :
    egBlockComment.endPos ≤ egBlockEnv.sourceFileText.length
    ∧ (egBlockComment.kind = CommentKind.singleLineCommentTrivia →
        slice egBlockEnv.sourceFileText egBlockComment.pos egBlockComment.endPos
          = '/' :: '/' :: [' ', 'h', ' '])
    ∧ (egBlockComment.kind = CommentKind.multiLineCommentTrivia →
        slice egBlockEnv.sourceFileText egBlockComment.pos egBlockComment.endPos
          = '/' :: '*' :: ([' ', 'h', ' '] ++ ['*', '/']))
    ∧ renderEntry egBlockEnv (Entry.comment egBlockComment)
        = SyntheticComment.mk egBlockComment.kind [' ', 'h', ' ']
            egBlockComment.hasTrailingNewLine :=
  ⟨by decide, by decide, by decide,
   claim_C5_comment_render egBlockEnv egBlockComment [' ', 'h', ' ']
     (by decide) (by decide) (by decide)⟩

/-- Claim C6: a node whose leading-trivia gap holds at most one newline and
no existing comments comes out of the pass with no synthetic comments and
with its trivia intact. -/
theorem claim_C6_untouched (env : Env) (nodes : List Node) (i : Nat) (n : Node)
    (hn : nodes.get? i = some n)
    (hgap : ((slice env.sourceFileText n.fullStart n.start).filter
        (fun char => char = '\n')).length ≤ 1)
    (hcom : env.leadingCommentRanges n.fullStart = []) :
    (runPass env (TState.mk [] []) nodes).2.get? i = some (NodeResult.mk [] false) :=
  runPass_untouched env nodes (TState.mk [] [])
    (fun k hk => absurd hk (List.not_mem_nil k)) i n hn hgap hcom

/-- Claim C6 witness: the node with trivia gap `\n` (one newline, no
comments) of `egEnv` is left untouched by the pass. -/
theorem claim_C6_witness :
    [egPlainNode].get? 0 = some egPlainNode
    ∧ ((slice egEnv.sourceFileText egPlainNode.fullStart egPlainNode.start).filter
        (fun char => char = '\n')).length ≤ 1
    ∧ egEnv.leadingCommentRanges egPlainNode.fullStart = []
    ∧ (runPass egEnv (TState.mk [] []) [egPlainNode]).2.get? 0
        = some (NodeResult.mk [] false) :=
  ⟨rfl, by decide, rfl,
   claim_C6_untouched egEnv [egPlainNode] 0 egPlainNode rfl (by decide) rfl⟩

/-- Claim C7 counterexample: at the first child of `egEnv`, the gap between
the two leading comments (offsets 3-6, text `\n\n\n`) holds two blank lines,
yet the computed annotation sequence is empty — between-comment gaps of the
first child are not counted, contradicting the claim that only the very
first gap is excluded. -/
theorem claim_C7_counterexample :
    egFirstChild.id = egEnv.firstChildId
    ∧ spec_gapMarkerCount (slice egEnv.sourceFileText 3 6) = 2
    ∧ (scanNode egEnv egFirstChild).newComments = [] :=
  ⟨rfl, by decide, by decide⟩

/-- Claim C7 (amended): for the first child, every gap preceding a comment
(the gap before the first comment and every between-comments gap) is excluded
from blank-line counting; only the gap after the last comment up to the
node's content start is counted and emitted as placeholder markers. -/
theorem claim_C7_first_child_gaps (env : Env) (node : Node)
    (hfc : node.id = env.firstChildId) :
    (scanNode env node).newComments
      = List.replicate
          (spec_gapMarkerCount (slice env.sourceFileText
            (lastRegionEnd (env.leadingCommentRanges node.fullStart) node.fullStart)
            node.start))
          Entry.BLANK_LINE := by
  rw [scanNode_firstChild env node hfc]
  rw [countBlankLines_eq_spec]

/-- Claim C7 witness: the amended statement instantiated at the first child
of `egEnv` (whose post-comment gap `\n` yields zero markers). -/
theorem claim_C7_witness :
    egFirstChild.id = egEnv.firstChildId
    ∧ (scanNode egEnv egFirstChild).newComments
        = List.replicate
            (spec_gapMarkerCount (slice egEnv.sourceFileText
              (lastRegionEnd (egEnv.leadingCommentRanges egFirstChild.fullStart)
                egFirstChild.fullStart)
              egFirstChild.start))
            Entry.BLANK_LINE :=
  ⟨rfl, claim_C7_first_child_gaps egEnv egFirstChild rfl⟩

/-- Claim C8 counterexample: the placeholder token is not 48 characters
long. -/
theorem claim_C8_counterexample : ¬ BLANK_LINE_PLACEHOLDER_COMMENT.length = 48 := by
  decide

/-- Claim C8 (amended): the exported placeholder token is the fixed literal
`__BLANK_LINE_PLACEHOLDER_<random>__` whose random-looking portion is a
32-character uppercase alphanumeric string, and the whole token is 59
characters long. -/
theorem claim_C8_token_shape :
    BLANK_LINE_PLACEHOLDER_COMMENT
        = "__BLANK_LINE_PLACEHOLDER_" ++ "G1JVXUEBNCL6YN5NFE13MD1PT3H9OIHB" ++ "__"
    ∧ BLANK_LINE_PLACEHOLDER_COMMENT.length = 59
    ∧ ∀ char ∈ "G1JVXUEBNCL6YN5NFE13MD1PT3H9OIHB".data,
        ('A' ≤ char ∧ char ≤ 'Z') ∨ ('0' ≤ char ∧ char ≤ '9') :=
  ⟨by decide, by decide, by decide⟩

/-- Claim C9: for a source file whose full text is empty, the transform
returns the input file unchanged, visiting no node and attaching nothing. -/
theorem claim_C9_empty_file (file : SourceFile) (h : file.text = []) :
    preserveBlankLinesTransformer file = (file, []) := by
  unfold preserveBlankLinesTransformer
  rw [h]
  rfl

/-- Claim C9 witness: a concrete empty file. -/
theorem claim_C9_witness :
    preserveBlankLinesTransformer (SourceFile.mk [] (fun _ => []) 0 [])
      = (SourceFile.mk [] (fun _ => []) 0 [], []) :=
  claim_C9_empty_file (SourceFile.mk [] (fun _ => []) 0 []) rfl

/-- Claim C10: the blank-line count of a gap depends on the number of `\n`
characters alone — it equals `max 0 (newlines - 1)` — and removing every
carriage-return character from the text leaves the count unchanged, so
CRLF-terminated text yields the same marker counts as its LF equivalent. -/
theorem claim_C10_newline_only (s : List Char) :
    countBlankLines s
      = (max 0 (((s.filter (fun char => char = '\n')).length : Int) - 1)).toNat
    ∧ countBlankLines (s.filter (fun char => ¬ char = '\r')) = countBlankLines s := by
  constructor
  · rw [countBlankLines_eq_spec]
    rfl
  · rw [countBlankLines_eq_spec, countBlankLines_eq_spec, spec_gapMarkerCount_eq,
      spec_gapMarkerCount_eq, List.filter_filter]
    congr 2
    apply List.filter_congr
    intro a _
    by_cases h : a = '\n'
    · subst h
      decide
    · simp [h]

end PreserveBlankLines
